import Mathlib

/-!
# migration/exec.c : the exec: migration transport

A shallow embedding of `migration/exec.c`.

* A `strList` (a NULL-terminated singly linked list of `char *` values) is a
  `List (Option String)`; `none` is a NULL `value` pointer.
* A `char **` array is a `List (Option String)` of slots; `none` is a NULL slot.
  A store outside the allocated slots is reported as `Fault.out_of_range`.
* C `int` arithmetic is carried out in `Int` and wrapped to 32 bits by `wrap_int`
  (QEMU is compiled with `-fwrapv`); `gsize` and pointers are 64 bits wide.
* Functions defined outside this file (tracing, process creation, the
  migration core, the object system, the main loop) are not interpreted: every
  call this file makes to them is appended to a log of `Call`s, and what they
  return is supplied by an `Env`.
-/

namespace MigrationExec

/-! ## Machine integers -/

/-- Largest value of a C `int`. -/
def INT_MAX : Int := 2147483647

/-- Smallest value of a C `int`. -/
def INT_MIN : Int := -2147483648

/-- Largest value of a `gsize`. -/
def G_MAXSIZE : Nat := 18446744073709551615

/-- Size in bytes of a `const char *`. -/
def sizeof_pointer : Nat := 8

/-- Result of an `int` computation whose mathematical value is `x`: the value is
reduced modulo `2^32` into `INT_MIN .. INT_MAX`. -/
def wrap_int (x : Int) : Int := (x + 2147483648) % 4294967296 - 2147483648

/-- Conversion of an `int` to `gsize`: reduction modulo `2^64`. -/
def to_gsize (x : Int) : Nat := (x % 18446744073709551616).toNat

/-! ## Data -/

/-- The QAPI `strList`: each node carries a `value` and a `next` pointer. -/
abbrev strList := List (Option String)

/-- Ways in which a run leaves defined behaviour. -/
inductive Fault where
  | abort
  | out_of_range
  deriving DecidableEq, Repr

/-- Error kinds named by the specification (section 7). -/
inductive ErrorKind where
  | InvalidArgument
  | SpawnError
  deriving DecidableEq, Repr

/-- An `Error` object held by an error sink. -/
structure Error where
  kind : ErrorKind
  msg : String
  deriving DecidableEq, Repr

/-- Handle of a `QIOChannel` object. -/
structure QIOChannel where
  id : Nat
  deriving DecidableEq, Repr

/-- Handle of a `MigrationState` object. -/
structure MigrationState where
  id : Nat
  deriving DecidableEq, Repr

/-- Handle of a `GMainContext`. -/
structure GMainContext where
  id : Nat
  deriving DecidableEq, Repr

/-- The access modes of `open(2)` that can be passed as `flags`. -/
inductive OpenFlag where
  | O_RDONLY
  | O_WRONLY
  | O_RDWR
  deriving DecidableEq, Repr

/-- The conditions of a `GIOCondition`. -/
inductive GIOCondition where
  | G_IO_IN
  | G_IO_OUT
  | G_IO_PRI
  | G_IO_ERR
  | G_IO_HUP
  | G_IO_NVAL
  deriving DecidableEq, Repr

/-- An untyped `gpointer`; `none` is NULL. -/
abbrev gpointer := Option Nat

/-- A `gboolean`. -/
abbrev gboolean := Bool

/-- Return value of a source callback asking for the source to be removed. -/
def G_SOURCE_REMOVE : gboolean := false

/-- Return value of a source callback asking for the source to be kept. -/
def G_SOURCE_CONTINUE : gboolean := true

/-- One call made to a function that is defined outside `exec.c`, with the
arguments it was given (and, for process creation, the channel it returned).
`func` of `qio_channel_add_watch_full` is the callback itself: a function from
channel, condition and opaque pointer to the calls it makes and its return
value. -/
inductive Call where
  | trace_migration_exec_outgoing (new_command : String)
  | trace_migration_exec_incoming (new_command : String)
  | qio_channel_command_new_spawn (argv : List (Option String)) (flags : OpenFlag)
      (ret : Option QIOChannel)
  | qio_channel_set_name (ioc : QIOChannel) (name : String)
  | migration_channel_connect (s : MigrationState) (ioc : QIOChannel)
      (hostname : Option String) (error_in : Option Error)
  | migration_channel_process_incoming (ioc : QIOChannel)
  | object_unref (ioc : QIOChannel)
  | qio_channel_add_watch_full (ioc : QIOChannel) (condition : GIOCondition)
      (func : QIOChannel → GIOCondition → gpointer → List Call × gboolean)
      (user_data : gpointer) (notify : gpointer) (context : GMainContext)

/-- Type of a channel watch callback (`QIOChannelFunc`). -/
abbrev QIOChannelFunc := QIOChannel → GIOCondition → gpointer → List Call × gboolean

/-- What the surroundings answer to the two calls whose result `exec.c` uses.
`qio_channel_command_new_spawn argv flags errp` gives the channel (or NULL) and
the content of the error sink after the call. -/
structure Env where
  qio_channel_command_new_spawn :
    List (Option String) → OpenFlag → Option Error → Option QIOChannel × Option Error
  g_main_context_get_thread_default : GMainContext

/-- State left by a launcher: the calls it made in order, the error sink, and
the fault that stopped it, if any. -/
structure Outcome where
  calls : List Call
  errp : Option Error
  fault : Option Fault

/-- State left by `init_exec_array`: the array, the error sink, and the indices
it stored to, in order. -/
structure Filled where
  argv : List (Option String)
  errp : Option Error
  stores : List Int

/-! ## Library functions -/

/-- GLib `g_new0 (const char *, n_structs)`: `n_structs` zeroed slots; the
program is terminated when the byte size overflows a `gsize`. -/
def g_new0 (n_structs : Nat) : Except Fault (List (Option String)) :=
  if n_structs > G_MAXSIZE / sizeof_pointer then .error Fault.abort
  else .ok (List.replicate n_structs none)

/-- Loop of GLib `g_strjoinv`: for each further non-NULL entry the separator
and the entry are appended; NULL ends the array. -/
def g_strjoinv_loop (separator : String) :
    List (Option String) → String → Except Fault String
  | [], _ => .error Fault.out_of_range
  | none :: _, string => .ok string
  | some str :: rest, string => g_strjoinv_loop separator rest (string ++ separator ++ str)

/-- GLib `g_strjoinv (separator, str_array)` on a NULL-terminated array. -/
def g_strjoinv (separator : String) : List (Option String) → Except Fault String
  | [] => .error Fault.out_of_range
  | none :: _ => .ok ""
  | some str :: rest => g_strjoinv_loop separator rest str

/-! ## exec.c -/

/-- The statement `argv[i] = v`. -/
def array_store (argv : List (Option String)) (i : Int) (v : Option String) :
    Except Fault (List (Option String)) :=
  if 0 ≤ i ∧ i < argv.length then .ok (argv.set i.toNat v) else .error Fault.out_of_range

/-- Loop of `str_list_length`: `len++` for every node. -/
def str_list_length_loop : strList → Int → Int
  | [], len => len
  | _ :: next, len => str_list_length_loop next (wrap_int (len + 1))

/-- `str_list_length`. -/
def str_list_length (list : strList) : Int :=
  str_list_length_loop list 0

/-- Loop of `init_exec_array`: `argv[i++] = lst->value` for every node. -/
def init_exec_array_loop :
    strList → Int → List (Option String) → List Int → Except Fault (Int × List (Option String) × List Int)
  | [], i, argv, stores => .ok (i, argv, stores)
  | value :: next, i, argv, stores =>
    match array_store argv i value with
    | .error f => .error f
    | .ok argv1 => init_exec_array_loop next (wrap_int (i + 1)) argv1 (stores ++ [i])

/-- `init_exec_array`: the loop, then `argv[i] = NULL`. -/
def init_exec_array (command : strList) (argv : List (Option String)) (errp : Option Error) :
    Except Fault Filled :=
  match init_exec_array_loop command 0 argv [] with
  | .error f => .error f
  | .ok (i, argv1, stores) =>
    match array_store argv1 i none with
    | .error f => .error f
    | .ok argv2 => .ok ⟨argv2, errp, stores ++ [i]⟩

/-- The statements with which both launchers begin (lines 75-78 and 109-112):
`length = str_list_length (command)`, `argv = g_new0 (const char *, length + 1)`
and `init_exec_array (command, argv, errp)`. -/
def build_argv (command : strList) (errp : Option Error) : Except Fault Filled :=
  let length := str_list_length command
  match g_new0 (to_gsize (wrap_int (length + 1))) with
  | .error f => .error f
  | .ok argv => init_exec_array command argv errp

/-- `exec_start_outgoing_migration`. -/
def exec_start_outgoing_migration (env : Env) (s : MigrationState) (command : strList)
    (errp : Option Error) : Outcome :=
  match build_argv command errp with
  | .error f => ⟨[], errp, some f⟩
  | .ok filled =>
    match g_strjoinv " " filled.argv with
    | .error f => ⟨[], filled.errp, some f⟩
    | .ok new_command =>
      let spawned := env.qio_channel_command_new_spawn filled.argv OpenFlag.O_RDWR filled.errp
      let calls := [Call.trace_migration_exec_outgoing new_command,
                    Call.qio_channel_command_new_spawn filled.argv OpenFlag.O_RDWR spawned.1]
      match spawned.1 with
      | none => ⟨calls, spawned.2, none⟩
      | some ioc =>
        ⟨calls ++ [Call.qio_channel_set_name ioc "migration-exec-outgoing",
                   Call.migration_channel_connect s ioc none none,
                   Call.object_unref ioc],
         spawned.2, none⟩

/-- `exec_accept_incoming_migration`. -/
def exec_accept_incoming_migration (ioc : QIOChannel) (_condition : GIOCondition)
    (_data : gpointer) : List Call × gboolean :=
  ([Call.migration_channel_process_incoming ioc, Call.object_unref ioc], G_SOURCE_REMOVE)

/-- `exec_start_incoming_migration`. -/
def exec_start_incoming_migration (env : Env) (command : strList) (errp : Option Error) :
    Outcome :=
  match build_argv command errp with
  | .error f => ⟨[], errp, some f⟩
  | .ok filled =>
    match g_strjoinv " " filled.argv with
    | .error f => ⟨[], filled.errp, some f⟩
    | .ok new_command =>
      let spawned := env.qio_channel_command_new_spawn filled.argv OpenFlag.O_RDWR filled.errp
      let calls := [Call.trace_migration_exec_incoming new_command,
                    Call.qio_channel_command_new_spawn filled.argv OpenFlag.O_RDWR spawned.1]
      match spawned.1 with
      | none => ⟨calls, spawned.2, none⟩
      | some ioc =>
        ⟨calls ++ [Call.qio_channel_set_name ioc "migration-exec-incoming",
                   Call.qio_channel_add_watch_full ioc GIOCondition.G_IO_IN
                     exec_accept_incoming_migration none none
                     env.g_main_context_get_thread_default],
         spawned.2, none⟩

/-! ## Reading the call log -/

/-- Is the call a trace event of one of the launchers? -/
def Call.is_trace : Call → Bool
  | .trace_migration_exec_outgoing _ => true
  | .trace_migration_exec_incoming _ => true
  | _ => false

/-- Is the call one that names a channel? -/
def Call.is_set_name : Call → Bool
  | .qio_channel_set_name _ _ => true
  | _ => false

/-- Is the call the connect callback of the migration core? -/
def Call.is_connect : Call → Bool
  | .migration_channel_connect _ _ _ _ => true
  | _ => false

/-- Is the call the accept callback of the migration core? -/
def Call.is_accept : Call → Bool
  | .migration_channel_process_incoming _ => true
  | _ => false

/-- Is the call the registration of a watch? -/
def Call.is_add_watch : Call → Bool
  | .qio_channel_add_watch_full _ _ _ _ _ _ => true
  | _ => false

/-- The process creations requested in a log: argument vector and flags. -/
def spawn_requests : List Call → List (List (Option String) × OpenFlag)
  | [] => []
  | .qio_channel_command_new_spawn argv flags _ :: rest => (argv, flags) :: spawn_requests rest
  | _ :: rest => spawn_requests rest

/-! ## The incoming launch as a state machine -/

/-- A watch registered on a main loop. -/
structure Watch where
  ioc : QIOChannel
  condition : GIOCondition
  func : QIOChannelFunc
  user_data : gpointer
  context : GMainContext

/-- The states of one incoming launch (specification, section 4.3). -/
inductive Phase where
  | Spawning
  | SpawnedWatchRegistered
  | AcceptedWatchRemoved
  | Failed
  deriving DecidableEq, Repr

/-- One incoming launch: its state, the watch that is registered for it (if
any), the calls made so far and the error sink. -/
structure Incoming where
  phase : Phase
  watch : Option Watch
  calls : List Call
  errp : Option Error

/-- The watch that a log of calls registers. -/
def registered_watch : List Call → Option Watch
  | [] => none
  | .qio_channel_add_watch_full ioc condition func user_data _ context :: _ =>
    some ⟨ioc, condition, func, user_data, context⟩
  | _ :: rest => registered_watch rest

/-- A launch that has not started. -/
def Incoming.initial (errp : Option Error) : Incoming :=
  ⟨Phase.Spawning, none, [], errp⟩

/-- Modelled from the spec: the transitions out of `Spawning` (section 4.3).
The caller of `exec_start_incoming_migration` is defined outside `exec.c`; the step runs
the launcher once and moves to `SpawnedWatchRegistered` when it registered a
watch, to `Failed` when it did not. Other states have no such step. -/
def Incoming.launch (env : Env) (command : strList) (st : Incoming) : Incoming :=
  match st.phase with
  | Phase.Spawning =>
    let out := exec_start_incoming_migration env command st.errp
    match registered_watch out.calls with
    | some w => ⟨Phase.SpawnedWatchRegistered, some w, st.calls ++ out.calls, out.errp⟩
    | none => ⟨Phase.Failed, none, st.calls ++ out.calls, out.errp⟩
  | _ => st

/-- Modelled from the spec: the main loop's handling of a Readiness Watch
(sections 3 and 4.3); `qio_channel_add_watch_full` and the loop are defined
outside `exec.c`. When the watched channel reports the watched condition the callback is
called with the channel, the condition and the registered opaque pointer; the
watch is removed when the callback returns `G_SOURCE_REMOVE` and kept
otherwise. Any other report leaves the launch as it is. -/
def Incoming.ready (ioc : QIOChannel) (condition : GIOCondition) (st : Incoming) : Incoming :=
  match st.watch with
  | none => st
  | some w =>
    if w.ioc = ioc ∧ w.condition = condition then
      let r := w.func w.ioc condition w.user_data
      if r.2 = G_SOURCE_REMOVE then ⟨Phase.AcceptedWatchRemoved, none, st.calls ++ r.1, st.errp⟩
      else ⟨st.phase, some w, st.calls ++ r.1, st.errp⟩
    else st

/-- One incoming launch followed by a sequence of reports from the main loop. -/
def Incoming.run (env : Env) (command : strList) (errp : Option Error)
    (reports : List (QIOChannel × GIOCondition)) : Incoming :=
  reports.foldl (fun st r => Incoming.ready r.1 r.2 st)
    (Incoming.launch env command (Incoming.initial errp))

/-- Number of calls of the accept callback made so far in a launch. -/
def Incoming.accepts (st : Incoming) : Nat :=
  (st.calls.filter Call.is_accept).length

/-- The shape of a launch that has left `Spawning`: either no watch is
registered and the launch is `Failed` without an accept call or
`AcceptedWatchRemoved` with one; or the watch of `exec_start_incoming_migration`
is registered, and the launch is `SpawnedWatchRegistered` without an accept
call. -/
def Incoming.settled (st : Incoming) : Prop :=
  (st.watch = none ∧
    ((st.phase = Phase.Failed ∧ st.accepts = 0) ∨
     (st.phase = Phase.AcceptedWatchRemoved ∧ st.accepts = 1))) ∨
  (∃ ioc user_data context,
    st.watch = some ⟨ioc, GIOCondition.G_IO_IN, exec_accept_incoming_migration,
                     user_data, context⟩ ∧
    st.phase = Phase.SpawnedWatchRegistered ∧ st.accepts = 0)

/-! ## Sample surroundings -/

/-- Surroundings in which every process creation succeeds with channel 7 and
leaves the error sink alone. -/
def env_spawn_ok : Env :=
  ⟨fun _ _ errp => (some ⟨7⟩, errp), ⟨1⟩⟩

/-- Surroundings in which every process creation fails and reports an error. -/
def env_spawn_fails : Env :=
  ⟨fun _ _ _ => (none, some ⟨ErrorKind.SpawnError, "spawn failed"⟩), ⟨1⟩⟩

/-- A command of `INT_MAX` tokens, each the string "a". -/
def long_command : strList := List.replicate 2147483647 (some "a")

/-- A command whose second node has a NULL `value`. -/
def command_with_null : strList := [some "a", none, some "b"]

/-- The command's tokens in list order with one space between consecutive
tokens (specification, section 8); a NULL `value` is not a token. -/
def joined_tokens (command : strList) : String :=
  " ".intercalate (command.filterMap id)

/-! ## Integer facts -/

theorem wrap_int_of_range (x : Int) (h0 : -2147483648 ≤ x) (h1 : x ≤ 2147483647) :
    wrap_int x = x := by
  unfold wrap_int
  omega

theorem to_gsize_of_nonneg (n : Nat) (h : (n : Int) ≤ 2147483648) : to_gsize (n : Int) = n := by
  unfold to_gsize
  omega

theorem str_list_length_loop_eq (list : strList) :
    ∀ acc : Nat, (acc : Int) + list.length ≤ 2147483647 →
      str_list_length_loop list acc = (acc : Int) + list.length := by
  induction list with
  | nil => intro acc _; simp only [str_list_length_loop, List.length_nil, Nat.cast_zero, add_zero]
  | cons v next ih =>
    intro acc h
    simp only [List.length_cons, Nat.cast_add, Nat.cast_one] at h
    have hw : wrap_int ((acc : Int) + 1) = ((acc + 1 : Nat) : Int) := by
      rw [wrap_int_of_range _ (by omega) (by omega)]
      simp only [Nat.cast_add, Nat.cast_one]
    rw [str_list_length_loop, hw]
    rw [ih (acc + 1) (by push_cast; omega)]
    simp only [List.length_cons, Nat.cast_add, Nat.cast_one]
    omega

theorem str_list_length_eq (list : strList) (h : (list.length : Int) ≤ INT_MAX) :
    str_list_length list = list.length := by
  have h2 : ((0 : Nat) : Int) + list.length ≤ 2147483647 := by
    unfold INT_MAX at h
    omega
  have := str_list_length_loop_eq list 0 h2
  rw [str_list_length, ← Nat.cast_zero, this]
  omega

/-! ## Filling the array -/

theorem array_store_mid (pre post : List (Option String)) (old v : Option String) :
    array_store (pre ++ old :: post) (pre.length : Int) v = .ok (pre ++ v :: post) := by
  unfold array_store
  have h : (0 : Int) ≤ pre.length ∧ (pre.length : Int) < ((pre ++ old :: post).length : Int) := by
    constructor
    · omega
    · simp only [List.length_append, List.length_cons]; omega
  rw [if_pos h]
  simp

theorem init_exec_array_loop_eq (command : strList) :
    ∀ (pre mid post : List (Option String)) (stores : List Int),
      mid.length = command.length →
      (pre.length : Int) + command.length ≤ 2147483647 →
      init_exec_array_loop command (pre.length : Int) (pre ++ mid ++ post) stores
        = .ok (((pre ++ command).length : Int), pre ++ command ++ post,
               stores ++ (List.range' pre.length command.length).map Int.ofNat) := by
  induction command with
  | nil =>
    intro pre mid post stores hmid _
    have : mid = [] := List.length_eq_zero.mp (by simpa using hmid)
    subst this
    simp [init_exec_array_loop]
  | cons v next ih =>
    intro pre mid post stores hmid hlen
    cases mid with
    | nil => simp at hmid
    | cons old mid1 =>
      simp only [List.length_cons, Nat.cast_add, Nat.cast_one] at hlen
      have hst : array_store (pre ++ old :: mid1 ++ post) (pre.length : Int) v
          = .ok (pre ++ v :: (mid1 ++ post)) := by
        have := array_store_mid pre (mid1 ++ post) old v
        simpa using this
      have hw : wrap_int ((pre.length : Int) + 1) = ((pre ++ [v]).length : Int) := by
        rw [wrap_int_of_range _ (by omega) (by omega)]
        simp only [List.length_append, List.length_singleton, Nat.cast_add, Nat.cast_one]
      have hrec := ih (pre ++ [v]) mid1 post (stores ++ [(pre.length : Int)])
        (by simp only [List.length_cons] at hmid; omega)
        (by simp only [List.length_append, List.length_singleton, Nat.cast_add, Nat.cast_one]; omega)
      simp only [init_exec_array_loop, hst, hw]
      have e1 : pre ++ v :: (mid1 ++ post) = pre ++ [v] ++ mid1 ++ post := by simp
      rw [e1, hrec]
      simp [List.range'_succ]

/-- On an array of at least `len + 1` slots, `init_exec_array` stores the
values at `0 .. len - 1`, NULL at `len`, and leaves the rest untouched. -/
theorem init_exec_array_eq (command : strList) (old : Option String)
    (mid post : List (Option String)) (errp : Option Error)
    (hmid : mid.length = command.length) (hlen : (command.length : Int) ≤ 2147483647) :
    init_exec_array command (mid ++ old :: post) errp
      = .ok ⟨command ++ none :: post, errp,
             (List.range' 0 (command.length + 1)).map Int.ofNat⟩ := by
  have h := init_exec_array_loop_eq command [] mid (old :: post) [] hmid
    (by simp only [List.length_nil, Nat.cast_zero]; omega)
  simp only [List.nil_append, List.length_nil, Nat.cast_zero] at h
  have hst := array_store_mid command post old none
  simp only [init_exec_array, h, hst]
  simp [List.range'_concat]

theorem init_exec_array_errp (command : strList) (argv : List (Option String))
    (errp : Option Error) (filled : Filled)
    (h : init_exec_array command argv errp = .ok filled) : filled.errp = errp := by
  unfold init_exec_array at h
  split at h
  · cases h
  · split at h
    · cases h
    · cases h; rfl

theorem build_argv_errp (command : strList) (errp : Option Error) (filled : Filled)
    (h : build_argv command errp = .ok filled) : filled.errp = errp := by
  unfold build_argv at h
  simp only at h
  split at h
  · cases h
  · exact init_exec_array_errp _ _ _ _ h

/-- The allocation request of the launchers, for a list shorter than `INT_MAX`. -/
theorem g_new0_request (command : strList) (h : (command.length : Int) < INT_MAX) :
    g_new0 (to_gsize (wrap_int (str_list_length command + 1)))
      = .ok (List.replicate (command.length + 1) none) := by
  unfold INT_MAX at h
  have hl := str_list_length_eq command (by unfold INT_MAX; omega)
  have hw : wrap_int ((command.length : Int) + 1) = ((command.length + 1 : Nat) : Int) := by
    rw [wrap_int_of_range _ (by omega) (by omega)]
    simp only [Nat.cast_add, Nat.cast_one]
  have hg : to_gsize ((command.length + 1 : Nat) : Int) = command.length + 1 :=
    to_gsize_of_nonneg _ (by simp only [Nat.cast_add, Nat.cast_one]; omega)
  rw [hl, hw, hg]
  unfold g_new0 G_MAXSIZE sizeof_pointer
  rw [if_neg (by omega)]

/-- For a list shorter than `INT_MAX` the launchers obtain the values followed
by NULL. -/
theorem build_argv_eq (command : strList) (errp : Option Error)
    (h : (command.length : Int) < INT_MAX) :
    build_argv command errp
      = .ok ⟨command ++ [none], errp, (List.range' 0 (command.length + 1)).map Int.ofNat⟩ := by
  have hg := g_new0_request command h
  unfold INT_MAX at h
  have hi := init_exec_array_eq command none (List.replicate command.length none) [] errp
    (by simp only [List.length_replicate]) (by omega)
  have hr : List.replicate (command.length + 1) (none : Option String)
      = List.replicate command.length none ++ [none] := by
    rw [List.replicate_succ']
  unfold build_argv
  simp only [hg, hr, hi]

/-- For a list of exactly `INT_MAX` nodes `length + 1` wraps to `INT_MIN` and
the allocation terminates the program. -/
theorem g_new0_request_int_max (command : strList) (h : (command.length : Int) = INT_MAX) :
    g_new0 (to_gsize (wrap_int (str_list_length command + 1))) = .error Fault.abort := by
  have hl := str_list_length_eq command (by omega)
  unfold INT_MAX at h
  have hw : wrap_int ((command.length : Int) + 1) = -2147483648 := by
    unfold wrap_int
    omega
  have hg : to_gsize (-2147483648) = 18446744071562067968 := by
    unfold to_gsize
    omega
  rw [hl, hw, hg]
  unfold g_new0 G_MAXSIZE sizeof_pointer
  rw [if_pos (by omega)]

theorem build_argv_int_max (command : strList) (errp : Option Error)
    (h : (command.length : Int) = INT_MAX) :
    build_argv command errp = .error Fault.abort := by
  unfold build_argv
  simp only [g_new0_request_int_max command h]

/-! ## Joining -/

theorem g_strjoinv_loop_tokens (separator : String) (tokens : List String) :
    ∀ (rest : List (Option String)) (string : String),
      g_strjoinv_loop separator (tokens.map some ++ none :: rest) string
        = .ok (String.intercalate.go string separator tokens) := by
  induction tokens with
  | nil => intro rest string; simp [g_strjoinv_loop, String.intercalate.go]
  | cons t ts ih =>
    intro rest string
    simp only [List.map_cons, List.cons_append, g_strjoinv_loop, String.intercalate.go]
    exact ih rest _

/-- On an array holding non-NULL tokens followed by NULL, `g_strjoinv` gives the
tokens with the separator between consecutive ones. -/
theorem g_strjoinv_tokens (separator : String) (tokens : List String)
    (rest : List (Option String)) :
    g_strjoinv separator (tokens.map some ++ none :: rest)
      = .ok (separator.intercalate tokens) := by
  cases tokens with
  | nil => simp [g_strjoinv, String.intercalate]
  | cons t ts =>
    simp only [List.map_cons, List.cons_append, g_strjoinv, String.intercalate]
    exact g_strjoinv_loop_tokens separator ts rest t

theorem g_strjoinv_loop_terminated (separator : String) (values : List (Option String)) :
    ∀ (rest : List (Option String)) (string : String),
      ∃ joined, g_strjoinv_loop separator (values ++ none :: rest) string = .ok joined := by
  induction values with
  | nil => intro rest string; exact ⟨string, by simp [g_strjoinv_loop]⟩
  | cons v vs ih =>
    intro rest string
    cases v with
    | none => exact ⟨string, by simp [g_strjoinv_loop]⟩
    | some t =>
      simp only [List.cons_append, g_strjoinv_loop]
      exact ih rest _

/-- On a NULL-terminated array `g_strjoinv` returns a string. -/
theorem g_strjoinv_terminated (separator : String) (values rest : List (Option String)) :
    ∃ joined, g_strjoinv separator (values ++ none :: rest) = .ok joined := by
  cases values with
  | nil => exact ⟨"", by simp [g_strjoinv]⟩
  | cons v vs =>
    cases v with
    | none => exact ⟨"", by simp [g_strjoinv]⟩
    | some t =>
      simp only [List.cons_append, g_strjoinv]
      exact g_strjoinv_loop_terminated separator vs rest t

/-! ## The launchers, case by case -/

theorem outgoing_spawn_inv (env : Env) (s : MigrationState) (command : strList)
    (errp : Option Error) (argv : List (Option String)) (flags : OpenFlag)
    (ret : Option QIOChannel)
    (h : Call.qio_channel_command_new_spawn argv flags ret
          ∈ (exec_start_outgoing_migration env s command errp).calls) :
    ∃ filled new_command, build_argv command errp = .ok filled ∧
      g_strjoinv " " filled.argv = .ok new_command ∧ argv = filled.argv ∧
      flags = OpenFlag.O_RDWR ∧
      ret = (env.qio_channel_command_new_spawn filled.argv OpenFlag.O_RDWR errp).1 := by
  unfold exec_start_outgoing_migration at h
  cases hb : build_argv command errp with
  | error f => simp [hb] at h
  | ok filled =>
    have he := build_argv_errp command errp filled hb
    cases hj : g_strjoinv " " filled.argv with
    | error f => simp [hb, hj] at h
    | ok new_command =>
      refine ⟨filled, new_command, rfl, hj, ?_⟩
      simp only [hb, hj, he] at h
      cases hs : (env.qio_channel_command_new_spawn filled.argv OpenFlag.O_RDWR errp).1 with
      | none =>
        simp only [hs] at h
        simp at h
        obtain ⟨h1, h2, h3⟩ := h
        exact ⟨h1, h2, h3⟩
      | some ioc =>
        simp only [hs] at h
        simp at h
        obtain ⟨h1, h2, h3⟩ := h
        exact ⟨h1, h2, h3⟩

theorem outgoing_spawn_none (env : Env) (s : MigrationState) (command : strList)
    (errp : Option Error) (filled : Filled) (new_command : String)
    (hb : build_argv command errp = .ok filled)
    (hj : g_strjoinv " " filled.argv = .ok new_command)
    (hs : (env.qio_channel_command_new_spawn filled.argv OpenFlag.O_RDWR errp).1 = none) :
    exec_start_outgoing_migration env s command errp
      = ⟨[Call.trace_migration_exec_outgoing new_command,
          Call.qio_channel_command_new_spawn filled.argv OpenFlag.O_RDWR none],
         (env.qio_channel_command_new_spawn filled.argv OpenFlag.O_RDWR errp).2, none⟩ := by
  have he := build_argv_errp command errp filled hb
  unfold exec_start_outgoing_migration
  simp only [hb, hj, he, hs]

theorem outgoing_spawn_some (env : Env) (s : MigrationState) (command : strList)
    (errp : Option Error) (filled : Filled) (new_command : String) (ioc : QIOChannel)
    (hb : build_argv command errp = .ok filled)
    (hj : g_strjoinv " " filled.argv = .ok new_command)
    (hs : (env.qio_channel_command_new_spawn filled.argv OpenFlag.O_RDWR errp).1 = some ioc) :
    exec_start_outgoing_migration env s command errp
      = ⟨[Call.trace_migration_exec_outgoing new_command,
          Call.qio_channel_command_new_spawn filled.argv OpenFlag.O_RDWR (some ioc),
          Call.qio_channel_set_name ioc "migration-exec-outgoing",
          Call.migration_channel_connect s ioc none none,
          Call.object_unref ioc],
         (env.qio_channel_command_new_spawn filled.argv OpenFlag.O_RDWR errp).2, none⟩ := by
  have he := build_argv_errp command errp filled hb
  unfold exec_start_outgoing_migration
  simp only [hb, hj, he, hs, List.cons_append, List.nil_append]

theorem incoming_spawn_inv (env : Env) (command : strList)
    (errp : Option Error) (argv : List (Option String)) (flags : OpenFlag)
    (ret : Option QIOChannel)
    (h : Call.qio_channel_command_new_spawn argv flags ret
          ∈ (exec_start_incoming_migration env command errp).calls) :
    ∃ filled new_command, build_argv command errp = .ok filled ∧
      g_strjoinv " " filled.argv = .ok new_command ∧ argv = filled.argv ∧
      flags = OpenFlag.O_RDWR ∧
      ret = (env.qio_channel_command_new_spawn filled.argv OpenFlag.O_RDWR errp).1 := by
  unfold exec_start_incoming_migration at h
  cases hb : build_argv command errp with
  | error f => simp [hb] at h
  | ok filled =>
    have he := build_argv_errp command errp filled hb
    cases hj : g_strjoinv " " filled.argv with
    | error f => simp [hb, hj] at h
    | ok new_command =>
      refine ⟨filled, new_command, rfl, hj, ?_⟩
      simp only [hb, hj, he] at h
      cases hs : (env.qio_channel_command_new_spawn filled.argv OpenFlag.O_RDWR errp).1 with
      | none =>
        simp only [hs] at h
        simp at h
        obtain ⟨h1, h2, h3⟩ := h
        exact ⟨h1, h2, h3⟩
      | some ioc =>
        simp only [hs] at h
        simp at h
        obtain ⟨h1, h2, h3⟩ := h
        exact ⟨h1, h2, h3⟩

theorem incoming_spawn_none (env : Env) (command : strList)
    (errp : Option Error) (filled : Filled) (new_command : String)
    (hb : build_argv command errp = .ok filled)
    (hj : g_strjoinv " " filled.argv = .ok new_command)
    (hs : (env.qio_channel_command_new_spawn filled.argv OpenFlag.O_RDWR errp).1 = none) :
    exec_start_incoming_migration env command errp
      = ⟨[Call.trace_migration_exec_incoming new_command,
          Call.qio_channel_command_new_spawn filled.argv OpenFlag.O_RDWR none],
         (env.qio_channel_command_new_spawn filled.argv OpenFlag.O_RDWR errp).2, none⟩ := by
  have he := build_argv_errp command errp filled hb
  unfold exec_start_incoming_migration
  simp only [hb, hj, he, hs]

theorem incoming_spawn_some (env : Env) (command : strList)
    (errp : Option Error) (filled : Filled) (new_command : String) (ioc : QIOChannel)
    (hb : build_argv command errp = .ok filled)
    (hj : g_strjoinv " " filled.argv = .ok new_command)
    (hs : (env.qio_channel_command_new_spawn filled.argv OpenFlag.O_RDWR errp).1 = some ioc) :
    exec_start_incoming_migration env command errp
      = ⟨[Call.trace_migration_exec_incoming new_command,
          Call.qio_channel_command_new_spawn filled.argv OpenFlag.O_RDWR (some ioc),
          Call.qio_channel_set_name ioc "migration-exec-incoming",
          Call.qio_channel_add_watch_full ioc GIOCondition.G_IO_IN
            exec_accept_incoming_migration none none env.g_main_context_get_thread_default],
         (env.qio_channel_command_new_spawn filled.argv OpenFlag.O_RDWR errp).2, none⟩ := by
  have he := build_argv_errp command errp filled hb
  unfold exec_start_incoming_migration
  simp only [hb, hj, he, hs, List.cons_append, List.nil_append]

/-- A launcher that is stopped by a fault has made no call. -/
theorem outgoing_fault (env : Env) (s : MigrationState) (command : strList)
    (errp : Option Error) (f : Fault) (hb : build_argv command errp = .error f) :
    exec_start_outgoing_migration env s command errp = ⟨[], errp, some f⟩ := by
  unfold exec_start_outgoing_migration
  simp only [hb]

theorem incoming_fault (env : Env) (command : strList)
    (errp : Option Error) (f : Fault) (hb : build_argv command errp = .error f) :
    exec_start_incoming_migration env command errp = ⟨[], errp, some f⟩ := by
  unfold exec_start_incoming_migration
  simp only [hb]

/-! ## Outgoing launcher after the spawn -/

/-- Claim C5. Whenever the process creation requested by
`exec_start_outgoing_migration` returns a channel, the launcher returns having
made exactly these calls in this order: the trace event, the process creation,
naming the channel "migration-exec-outgoing", `migration_channel_connect` with
the given state, that channel, no hostname and no error, and `object_unref`.
The connect callback is thus called exactly once, and no watch is registered. -/
theorem outgoing_success_connects_once (env : Env) (s : MigrationState) (command : strList)
    (errp : Option Error) (argv : List (Option String)) (flags : OpenFlag) (ioc : QIOChannel)
    (h : Call.qio_channel_command_new_spawn argv flags (some ioc)
          ∈ (exec_start_outgoing_migration env s command errp).calls) :
    (∃ new_command,
      (exec_start_outgoing_migration env s command errp).calls
        = [Call.trace_migration_exec_outgoing new_command,
           Call.qio_channel_command_new_spawn argv OpenFlag.O_RDWR (some ioc),
           Call.qio_channel_set_name ioc "migration-exec-outgoing",
           Call.migration_channel_connect s ioc none none,
           Call.object_unref ioc]) ∧
    (exec_start_outgoing_migration env s command errp).fault = none ∧
    (exec_start_outgoing_migration env s command errp).calls.filter Call.is_connect
      = [Call.migration_channel_connect s ioc none none] ∧
    (exec_start_outgoing_migration env s command errp).calls.filter Call.is_set_name
      = [Call.qio_channel_set_name ioc "migration-exec-outgoing"] ∧
    (exec_start_outgoing_migration env s command errp).calls.filter Call.is_add_watch = [] := by
  obtain ⟨filled, new_command, hb, hj, ha, _, hr⟩ :=
    outgoing_spawn_inv env s command errp argv flags (some ioc) h
  subst ha
  rw [outgoing_spawn_some env s command errp filled new_command ioc hb hj hr.symm]
  refine ⟨⟨new_command, rfl⟩, rfl, ?_, ?_, ?_⟩ <;>
    simp [List.filter, Call.is_connect, Call.is_set_name, Call.is_add_watch]

/-- The launch of `cat` in surroundings where the spawn succeeds. -/
theorem outgoing_success_connects_once_witness :
    Call.qio_channel_command_new_spawn [some "cat", none] OpenFlag.O_RDWR (some ⟨7⟩)
        ∈ (exec_start_outgoing_migration env_spawn_ok ⟨0⟩ [some "cat"] none).calls ∧
    (exec_start_outgoing_migration env_spawn_ok ⟨0⟩ [some "cat"] none).calls.filter
        Call.is_connect = [Call.migration_channel_connect ⟨0⟩ ⟨7⟩ none none] :=
  have h : Call.qio_channel_command_new_spawn [some "cat", none] OpenFlag.O_RDWR (some ⟨7⟩)
      ∈ (exec_start_outgoing_migration env_spawn_ok ⟨0⟩ [some "cat"] none).calls :=
    List.Mem.tail _ (List.Mem.head _)
  ⟨h, (outgoing_success_connects_once env_spawn_ok ⟨0⟩ [some "cat"] none _ _ _ h).2.2.1⟩

/-- Claim C6. Whenever the process creation requested by
`exec_start_outgoing_migration` returns no channel, the launcher returns having
made only the trace event and the process creation: no channel is named and the
connect callback is not called; the error sink holds what the process creation
left in it. -/
theorem outgoing_failure_is_silent (env : Env) (s : MigrationState) (command : strList)
    (errp : Option Error) (argv : List (Option String)) (flags : OpenFlag)
    (h : Call.qio_channel_command_new_spawn argv flags none
          ∈ (exec_start_outgoing_migration env s command errp).calls) :
    (∃ new_command,
      (exec_start_outgoing_migration env s command errp).calls
        = [Call.trace_migration_exec_outgoing new_command,
           Call.qio_channel_command_new_spawn argv OpenFlag.O_RDWR none]) ∧
    (exec_start_outgoing_migration env s command errp).fault = none ∧
    (env.qio_channel_command_new_spawn argv OpenFlag.O_RDWR errp).1 = none ∧
    (exec_start_outgoing_migration env s command errp).errp
      = (env.qio_channel_command_new_spawn argv OpenFlag.O_RDWR errp).2 ∧
    (exec_start_outgoing_migration env s command errp).calls.filter Call.is_set_name = [] ∧
    (exec_start_outgoing_migration env s command errp).calls.filter Call.is_connect = [] := by
  obtain ⟨filled, new_command, hb, hj, ha, _, hr⟩ :=
    outgoing_spawn_inv env s command errp argv flags none h
  subst ha
  rw [outgoing_spawn_none env s command errp filled new_command hb hj hr.symm]
  refine ⟨⟨new_command, rfl⟩, rfl, hr.symm, rfl, ?_, ?_⟩ <;>
    simp [List.filter, Call.is_connect, Call.is_set_name]

/-- The launch of a missing executable in surroundings where the spawn fails. -/
theorem outgoing_failure_is_silent_witness :
    Call.qio_channel_command_new_spawn [some "/no/such/file", none] OpenFlag.O_RDWR none
        ∈ (exec_start_outgoing_migration env_spawn_fails ⟨0⟩ [some "/no/such/file"] none).calls ∧
    (exec_start_outgoing_migration env_spawn_fails ⟨0⟩ [some "/no/such/file"] none).errp
      = some ⟨ErrorKind.SpawnError, "spawn failed"⟩ ∧
    (exec_start_outgoing_migration env_spawn_fails ⟨0⟩ [some "/no/such/file"] none).calls.filter
        Call.is_connect = [] :=
  have h : Call.qio_channel_command_new_spawn [some "/no/such/file", none] OpenFlag.O_RDWR none
      ∈ (exec_start_outgoing_migration env_spawn_fails ⟨0⟩ [some "/no/such/file"] none).calls :=
    List.Mem.tail _ (List.Mem.head _)
  have c := outgoing_failure_is_silent env_spawn_fails ⟨0⟩ [some "/no/such/file"] none _ _ h
  ⟨h, c.2.2.2.1, c.2.2.2.2.2⟩

/-! ## Incoming launcher after the spawn -/

/-- Claim C7. Whenever the process creation requested by
`exec_start_incoming_migration` returns no channel, the launcher returns having
made only the trace event and the process creation: no watch is registered and
the accept callback is not called; the error sink holds what the process
creation left in it. -/
theorem incoming_failure_is_silent (env : Env) (command : strList)
    (errp : Option Error) (argv : List (Option String)) (flags : OpenFlag)
    (h : Call.qio_channel_command_new_spawn argv flags none
          ∈ (exec_start_incoming_migration env command errp).calls) :
    (∃ new_command,
      (exec_start_incoming_migration env command errp).calls
        = [Call.trace_migration_exec_incoming new_command,
           Call.qio_channel_command_new_spawn argv OpenFlag.O_RDWR none]) ∧
    (exec_start_incoming_migration env command errp).fault = none ∧
    (env.qio_channel_command_new_spawn argv OpenFlag.O_RDWR errp).1 = none ∧
    (exec_start_incoming_migration env command errp).errp
      = (env.qio_channel_command_new_spawn argv OpenFlag.O_RDWR errp).2 ∧
    (exec_start_incoming_migration env command errp).calls.filter Call.is_add_watch = [] ∧
    (exec_start_incoming_migration env command errp).calls.filter Call.is_accept = [] ∧
    registered_watch (exec_start_incoming_migration env command errp).calls = none := by
  obtain ⟨filled, new_command, hb, hj, ha, _, hr⟩ :=
    incoming_spawn_inv env command errp argv flags none h
  subst ha
  rw [incoming_spawn_none env command errp filled new_command hb hj hr.symm]
  refine ⟨⟨new_command, rfl⟩, rfl, hr.symm, rfl, ?_, ?_, ?_⟩ <;>
    simp [List.filter, Call.is_accept, Call.is_add_watch, registered_watch]

/-- The incoming launch of a missing executable in surroundings where the spawn
fails. -/
theorem incoming_failure_is_silent_witness :
    Call.qio_channel_command_new_spawn [some "/no/such/file", none] OpenFlag.O_RDWR none
        ∈ (exec_start_incoming_migration env_spawn_fails [some "/no/such/file"] none).calls ∧
    (exec_start_incoming_migration env_spawn_fails [some "/no/such/file"] none).errp
      = some ⟨ErrorKind.SpawnError, "spawn failed"⟩ ∧
    (exec_start_incoming_migration env_spawn_fails [some "/no/such/file"] none).calls.filter
        Call.is_add_watch = [] :=
  have h : Call.qio_channel_command_new_spawn [some "/no/such/file", none] OpenFlag.O_RDWR none
      ∈ (exec_start_incoming_migration env_spawn_fails [some "/no/such/file"] none).calls :=
    List.Mem.tail _ (List.Mem.head _)
  have c := incoming_failure_is_silent env_spawn_fails [some "/no/such/file"] none _ _ h
  ⟨h, c.2.2.2.1, c.2.2.2.2.1⟩

/-- Claim C8. Whenever the process creation requested by
`exec_start_incoming_migration` returns a channel, the launcher returns having
made exactly these calls in this order: the trace event, the process creation,
naming the channel "migration-exec-incoming", and one
`qio_channel_add_watch_full` on that channel for `G_IO_IN` with
`exec_accept_incoming_migration` as callback, NULL user data and notifier, and
the thread-default main context. The accept callback has not been called. -/
theorem incoming_success_registers_one_watch (env : Env) (command : strList)
    (errp : Option Error) (argv : List (Option String)) (flags : OpenFlag) (ioc : QIOChannel)
    (h : Call.qio_channel_command_new_spawn argv flags (some ioc)
          ∈ (exec_start_incoming_migration env command errp).calls) :
    (∃ new_command,
      (exec_start_incoming_migration env command errp).calls
        = [Call.trace_migration_exec_incoming new_command,
           Call.qio_channel_command_new_spawn argv OpenFlag.O_RDWR (some ioc),
           Call.qio_channel_set_name ioc "migration-exec-incoming",
           Call.qio_channel_add_watch_full ioc GIOCondition.G_IO_IN
             exec_accept_incoming_migration none none
             env.g_main_context_get_thread_default]) ∧
    (exec_start_incoming_migration env command errp).fault = none ∧
    (exec_start_incoming_migration env command errp).calls.filter Call.is_set_name
      = [Call.qio_channel_set_name ioc "migration-exec-incoming"] ∧
    (exec_start_incoming_migration env command errp).calls.filter Call.is_add_watch
      = [Call.qio_channel_add_watch_full ioc GIOCondition.G_IO_IN
           exec_accept_incoming_migration none none
           env.g_main_context_get_thread_default] ∧
    (exec_start_incoming_migration env command errp).calls.filter Call.is_accept = [] := by
  obtain ⟨filled, new_command, hb, hj, ha, _, hr⟩ :=
    incoming_spawn_inv env command errp argv flags (some ioc) h
  subst ha
  rw [incoming_spawn_some env command errp filled new_command ioc hb hj hr.symm]
  refine ⟨⟨new_command, rfl⟩, rfl, ?_, ?_, ?_⟩ <;>
    simp [List.filter, Call.is_accept, Call.is_set_name, Call.is_add_watch]

/-- The incoming launch of `cat` in surroundings where the spawn succeeds. -/
theorem incoming_success_registers_one_watch_witness :
    Call.qio_channel_command_new_spawn [some "cat", none] OpenFlag.O_RDWR (some ⟨7⟩)
        ∈ (exec_start_incoming_migration env_spawn_ok [some "cat"] none).calls ∧
    (exec_start_incoming_migration env_spawn_ok [some "cat"] none).calls.filter Call.is_add_watch
      = [Call.qio_channel_add_watch_full ⟨7⟩ GIOCondition.G_IO_IN
           exec_accept_incoming_migration none none ⟨1⟩] ∧
    (exec_start_incoming_migration env_spawn_ok [some "cat"] none).calls.filter Call.is_accept
      = [] :=
  have h : Call.qio_channel_command_new_spawn [some "cat", none] OpenFlag.O_RDWR (some ⟨7⟩)
      ∈ (exec_start_incoming_migration env_spawn_ok [some "cat"] none).calls :=
    List.Mem.tail _ (List.Mem.head _)
  have c := incoming_success_registers_one_watch env_spawn_ok [some "cat"] none _ _ _ h
  ⟨h, c.2.2.2.1, c.2.2.2.2⟩

/-! ## The argument vector -/

theorem long_command_length : (long_command.length : Int) = INT_MAX := by
  unfold long_command INT_MAX
  rw [List.length_replicate]
  rfl

/-- Claim C1, amended. For every non-empty command list whose token values are
all non-null and whose length is below `INT_MAX`, the vector built by
`str_list_length`, `g_new0 (length + 1)` and `init_exec_array` has exactly
`len + 1` slots, slot `len` is NULL and no slot below `len` is NULL. -/
theorem argv_shape (command : strList) (errp : Option Error)
    (_hne : command ≠ []) (hnn : ∀ v ∈ command, v ≠ none)
    (hlen : (command.length : Int) < INT_MAX) :
    ∃ filled, build_argv command errp = .ok filled ∧
      filled.argv.length = command.length + 1 ∧
      filled.argv[command.length]? = some none ∧
      ∀ i, i < command.length → ∃ token, filled.argv[i]? = some (some token) := by
  refine ⟨_, build_argv_eq command errp hlen, ?_, ?_, ?_⟩
  · simp
  · simp
  · intro i hi
    have hv : command[i] ∈ command := List.getElem_mem hi
    cases hc : command[i] with
    | none => exact absurd hc (hnn _ hv)
    | some token =>
      refine ⟨token, ?_⟩
      show (command ++ [none])[i]? = some (some token)
      rw [List.getElem?_append_left hi, List.getElem?_eq_getElem hi, hc]

/-- The vector built for `cat -`. -/
theorem argv_shape_witness :
    ∃ filled, build_argv [some "cat", some "-"] none = .ok filled ∧
      filled.argv.length = 2 + 1 ∧ filled.argv[2]? = some none ∧
      ∀ i, i < 2 → ∃ token, filled.argv[i]? = some (some token) :=
  argv_shape [some "cat", some "-"] none (by simp) (by simp) (by decide)

/-- Claim C1 as stated fails for a command of `INT_MAX` non-null tokens:
`length + 1` wraps to `INT_MIN` and no vector is built. -/
theorem argv_shape_fails_at_int_max :
    long_command ≠ [] ∧ (∀ v ∈ long_command, v ≠ none) ∧
    build_argv long_command none = .error Fault.abort := by
  refine ⟨?_, ?_, build_argv_int_max long_command none long_command_length⟩
  · intro h
    have := congrArg List.length h
    unfold long_command at this
    rw [List.length_replicate] at this
    exact absurd this (by decide)
  · intro v hv
    unfold long_command at hv
    rw [List.eq_of_mem_replicate hv]
    exact Option.some_ne_none _

/-- Claim C2, amended. For every command list whose length is below `INT_MAX`,
each launcher requests exactly one process creation; its argument vector is the
list's values in list order followed by NULL, and its flags are `O_RDWR`. -/
theorem spawn_argv_is_command (env : Env) (s : MigrationState) (command : strList)
    (errp : Option Error) (hlen : (command.length : Int) < INT_MAX) :
    spawn_requests (exec_start_outgoing_migration env s command errp).calls
      = [(command ++ [none], OpenFlag.O_RDWR)] ∧
    spawn_requests (exec_start_incoming_migration env command errp).calls
      = [(command ++ [none], OpenFlag.O_RDWR)] ∧
    (command ++ [none]).length = command.length + 1 ∧
    (∀ i, i < command.length → (command ++ [none])[i]? = command[i]?) ∧
    (command ++ [none])[command.length]? = some none := by
  have hb := build_argv_eq command errp hlen
  obtain ⟨joined, hj⟩ := g_strjoinv_terminated " " command []
  refine ⟨?_, ?_, by simp, fun i hi => List.getElem?_append_left hi, by simp⟩
  · cases hs : (env.qio_channel_command_new_spawn (command ++ [none]) OpenFlag.O_RDWR errp).1 with
    | none =>
      rw [outgoing_spawn_none env s command errp _ joined hb hj hs]
      simp [spawn_requests]
    | some ioc =>
      rw [outgoing_spawn_some env s command errp _ joined ioc hb hj hs]
      simp [spawn_requests]
  · cases hs : (env.qio_channel_command_new_spawn (command ++ [none]) OpenFlag.O_RDWR errp).1 with
    | none =>
      rw [incoming_spawn_none env command errp _ joined hb hj hs]
      simp [spawn_requests]
    | some ioc =>
      rw [incoming_spawn_some env command errp _ joined ioc hb hj hs]
      simp [spawn_requests]

/-- The process creation requested for `cat -`. -/
theorem spawn_argv_is_command_witness :
    spawn_requests (exec_start_outgoing_migration env_spawn_ok ⟨0⟩ [some "cat", some "-"] none).calls
      = [([some "cat", some "-", none], OpenFlag.O_RDWR)] ∧
    spawn_requests (exec_start_incoming_migration env_spawn_ok [some "cat", some "-"] none).calls
      = [([some "cat", some "-", none], OpenFlag.O_RDWR)] :=
  have c := spawn_argv_is_command env_spawn_ok ⟨0⟩ [some "cat", some "-"] none (by decide)
  ⟨c.1, c.2.1⟩

/-- Claim C2 as stated fails for a command of `INT_MAX` tokens: neither launcher
hands any vector to process creation. -/
theorem spawn_argv_missing_at_int_max :
    spawn_requests (exec_start_outgoing_migration env_spawn_ok ⟨0⟩ long_command none).calls = [] ∧
    spawn_requests (exec_start_incoming_migration env_spawn_ok long_command none).calls = [] := by
  have hb := build_argv_int_max long_command none long_command_length
  rw [outgoing_fault _ _ _ _ _ hb, incoming_fault _ _ _ _ hb]
  exact ⟨rfl, rfl⟩

/-! ## The trace event -/

theorem values_of_non_null (command : strList) (hnn : ∀ v ∈ command, v ≠ none) :
    (command.filterMap id).map some = command := by
  induction command with
  | nil => rfl
  | cons v vs ih =>
    have hvs : ∀ w ∈ vs, w ≠ none := fun w hw => hnn w (List.mem_cons_of_mem _ hw)
    cases v with
    | none => exact absurd rfl (hnn none (List.mem_cons_self _ _))
    | some t =>
      simp only [List.filterMap_cons, id, List.map_cons]
      rw [ih hvs]

/-- Claim C3, amended. For every non-empty command list whose token values are
all non-null and whose length is below `INT_MAX`, each launcher makes the trace
call as its first call, immediately followed by the process creation, and makes
no other trace call; the string traced is the tokens in list order with one
space between consecutive tokens. -/
theorem trace_is_joined_tokens (env : Env) (s : MigrationState) (command : strList)
    (errp : Option Error) (_hne : command ≠ []) (hnn : ∀ v ∈ command, v ≠ none)
    (hlen : (command.length : Int) < INT_MAX) :
    (∃ ret after,
      (exec_start_outgoing_migration env s command errp).calls
        = Call.trace_migration_exec_outgoing (joined_tokens command)
          :: Call.qio_channel_command_new_spawn (command ++ [none]) OpenFlag.O_RDWR ret
          :: after) ∧
    (exec_start_outgoing_migration env s command errp).calls.filter Call.is_trace
      = [Call.trace_migration_exec_outgoing (joined_tokens command)] ∧
    (∃ ret after,
      (exec_start_incoming_migration env command errp).calls
        = Call.trace_migration_exec_incoming (joined_tokens command)
          :: Call.qio_channel_command_new_spawn (command ++ [none]) OpenFlag.O_RDWR ret
          :: after) ∧
    (exec_start_incoming_migration env command errp).calls.filter Call.is_trace
      = [Call.trace_migration_exec_incoming (joined_tokens command)] := by
  have hb := build_argv_eq command errp hlen
  have hj : g_strjoinv " " (command ++ [none]) = .ok (joined_tokens command) := by
    have := g_strjoinv_tokens " " (command.filterMap id) []
    rw [values_of_non_null command hnn] at this
    exact this
  cases hs : (env.qio_channel_command_new_spawn (command ++ [none]) OpenFlag.O_RDWR errp).1 with
  | none =>
    rw [outgoing_spawn_none env s command errp _ _ hb hj hs,
      incoming_spawn_none env command errp _ _ hb hj hs]
    refine ⟨⟨none, [], rfl⟩, ?_, ⟨none, [], rfl⟩, ?_⟩ <;> simp [List.filter, Call.is_trace]
  | some ioc =>
    rw [outgoing_spawn_some env s command errp _ _ ioc hb hj hs,
      incoming_spawn_some env command errp _ _ ioc hb hj hs]
    refine ⟨⟨some ioc, _, rfl⟩, ?_, ⟨some ioc, _, rfl⟩, ?_⟩ <;> simp [List.filter, Call.is_trace]

/-- The trace events of the launches of `cat -`. -/
theorem trace_is_joined_tokens_witness :
    (exec_start_outgoing_migration env_spawn_ok ⟨0⟩ [some "cat", some "-"] none).calls.filter
        Call.is_trace = [Call.trace_migration_exec_outgoing "cat -"] ∧
    (exec_start_incoming_migration env_spawn_ok [some "cat", some "-"] none).calls.filter
        Call.is_trace = [Call.trace_migration_exec_incoming "cat -"] :=
  have c := trace_is_joined_tokens env_spawn_ok ⟨0⟩ [some "cat", some "-"] none
    (by simp) (by simp) (by decide)
  ⟨c.2.1, c.2.2.2⟩

/-- Claim C3 as stated fails in two ways. For the command `a`, NULL, `b` the
string traced is "a", not the tokens joined; for a command of `INT_MAX` tokens
no trace call is made. -/
theorem trace_not_joined_tokens :
    (exec_start_outgoing_migration env_spawn_ok ⟨0⟩ command_with_null none).calls.filter
        Call.is_trace = [Call.trace_migration_exec_outgoing "a"] ∧
    (exec_start_incoming_migration env_spawn_ok command_with_null none).calls.filter
        Call.is_trace = [Call.trace_migration_exec_incoming "a"] ∧
    joined_tokens command_with_null = "a b" ∧
    (exec_start_outgoing_migration env_spawn_ok ⟨0⟩ long_command none).calls = [] ∧
    (exec_start_incoming_migration env_spawn_ok long_command none).calls = [] := by
  have hb := build_argv_int_max long_command none long_command_length
  rw [outgoing_fault _ _ _ _ _ hb, incoming_fault _ _ _ _ hb]
  exact ⟨rfl, rfl, rfl, rfl, rfl⟩

/-! ## The empty command -/

theorem build_argv_nil (errp : Option Error) :
    build_argv [] errp = .ok ⟨[none], errp, [0]⟩ :=
  build_argv_eq [] errp (by decide)

/-- Claim C4, amended. When the command list is empty, each launcher makes the
trace call with the empty string and requests one process creation, whose
argument vector holds only the NULL terminator and whose flags are `O_RDWR`;
the launcher puts no error of its own in the error sink, which holds what the
process creation left in it. -/
theorem empty_command_is_spawned (env : Env) (s : MigrationState) (errp : Option Error) :
    spawn_requests (exec_start_outgoing_migration env s [] errp).calls
      = [([none], OpenFlag.O_RDWR)] ∧
    (exec_start_outgoing_migration env s [] errp).calls.filter Call.is_trace
      = [Call.trace_migration_exec_outgoing ""] ∧
    (exec_start_outgoing_migration env s [] errp).errp
      = (env.qio_channel_command_new_spawn [none] OpenFlag.O_RDWR errp).2 ∧
    spawn_requests (exec_start_incoming_migration env [] errp).calls
      = [([none], OpenFlag.O_RDWR)] ∧
    (exec_start_incoming_migration env [] errp).calls.filter Call.is_trace
      = [Call.trace_migration_exec_incoming ""] ∧
    (exec_start_incoming_migration env [] errp).errp
      = (env.qio_channel_command_new_spawn [none] OpenFlag.O_RDWR errp).2 := by
  have hb := build_argv_nil errp
  have hj : g_strjoinv " " [none] = .ok "" := rfl
  cases hs : (env.qio_channel_command_new_spawn [none] OpenFlag.O_RDWR errp).1 with
  | none =>
    rw [outgoing_spawn_none env s [] errp _ _ hb hj hs,
      incoming_spawn_none env [] errp _ _ hb hj hs]
    simp [spawn_requests, List.filter, Call.is_trace]
  | some ioc =>
    rw [outgoing_spawn_some env s [] errp _ _ ioc hb hj hs,
      incoming_spawn_some env [] errp _ _ ioc hb hj hs]
    simp [spawn_requests, List.filter, Call.is_trace]

/-- Claim C4 as stated fails: for the empty command both launchers request the
process creation with a vector that has no executable path, and where that
creation succeeds they go on to deliver the channel and leave the error sink
empty. -/
theorem empty_command_not_rejected :
    (exec_start_outgoing_migration env_spawn_ok ⟨0⟩ [] none).calls
      = [Call.trace_migration_exec_outgoing "",
         Call.qio_channel_command_new_spawn [none] OpenFlag.O_RDWR (some ⟨7⟩),
         Call.qio_channel_set_name ⟨7⟩ "migration-exec-outgoing",
         Call.migration_channel_connect ⟨0⟩ ⟨7⟩ none none,
         Call.object_unref ⟨7⟩] ∧
    (exec_start_outgoing_migration env_spawn_ok ⟨0⟩ [] none).errp = none ∧
    (exec_start_incoming_migration env_spawn_ok [] none).calls
      = [Call.trace_migration_exec_incoming "",
         Call.qio_channel_command_new_spawn [none] OpenFlag.O_RDWR (some ⟨7⟩),
         Call.qio_channel_set_name ⟨7⟩ "migration-exec-incoming",
         Call.qio_channel_add_watch_full ⟨7⟩ GIOCondition.G_IO_IN
           exec_accept_incoming_migration none none ⟨1⟩] ∧
    (exec_start_incoming_migration env_spawn_ok [] none).errp = none :=
  ⟨rfl, rfl, rfl, rfl⟩

/-! ## Stores of `init_exec_array` -/

/-- Claim C10. For every command list whose length fits in an `int`, the
launchers' pipeline never takes the out-of-range branch, and on the slots that
the launchers allocate `init_exec_array` returns having stored to the indices
`0 .. len - 1` and then to `len`, every one of them inside the allocation, with
the error sink as it was. For a length below `INT_MAX` the allocation has
exactly `len + 1` slots. -/
theorem init_exec_array_stays_in_bounds (command : strList) (errp : Option Error)
    (hlen : (command.length : Int) ≤ INT_MAX) :
    build_argv command errp ≠ .error Fault.out_of_range ∧
    (∀ argv, g_new0 (to_gsize (wrap_int (str_list_length command + 1))) = .ok argv →
      ∃ filled, init_exec_array command argv errp = .ok filled ∧
        filled.stores = (List.range command.length).map Int.ofNat ++ [(command.length : Int)] ∧
        (∀ i ∈ filled.stores, 0 ≤ i ∧ i < (argv.length : Int)) ∧
        filled.errp = errp) ∧
    ((command.length : Int) < INT_MAX →
      ∃ argv, g_new0 (to_gsize (wrap_int (str_list_length command + 1))) = .ok argv ∧
        argv.length = command.length + 1) := by
  by_cases hlt : (command.length : Int) < INT_MAX
  · have hg := g_new0_request command hlt
    have hb := build_argv_eq command errp hlt
    refine ⟨(by rw [hb]; intro h; cases h), ?_, fun _ => ⟨_, hg, by simp⟩⟩
    intro argv ha
    rw [hg] at ha
    cases ha
    have hi : build_argv command errp
        = init_exec_array command (List.replicate (command.length + 1) none) errp := by
      unfold build_argv
      simp only [hg]
    rw [← hi, hb]
    refine ⟨_, rfl, ?_, ?_, rfl⟩
    · show List.map Int.ofNat (List.range' 0 (command.length + 1)) = _
      rw [← List.range_eq_range', List.range_succ, List.map_append]
      rfl
    · intro i hi
      simp only [List.mem_map, List.mem_range'_1] at hi
      obtain ⟨k, ⟨_, hk⟩, rfl⟩ := hi
      simp only [List.length_replicate, Int.ofNat_eq_coe]
      omega
  · have he : (command.length : Int) = INT_MAX := by omega
    have hb := build_argv_int_max command errp he
    refine ⟨(by rw [hb]; intro h; cases h), ?_, fun h => absurd h hlt⟩
    intro argv ha
    rw [g_new0_request_int_max command he] at ha
    cases ha

/-- The stores of `init_exec_array` for `cat -`. -/
theorem init_exec_array_stays_in_bounds_witness :
    ∃ filled, init_exec_array [some "cat", some "-"] [none, none, none] none = .ok filled ∧
      filled.stores = [0, 1, 2] ∧ filled.errp = none :=
  have c := (init_exec_array_stays_in_bounds [some "cat", some "-"] none (by decide)).2.1
    [none, none, none] rfl
  c.elim fun filled h => ⟨filled, h.1, h.2.1, h.2.2.2⟩

/-! ## The one-shot watch -/

theorem incoming_cases (env : Env) (command : strList) (errp : Option Error) :
    (∃ e f, exec_start_incoming_migration env command errp = ⟨[], e, some f⟩) ∨
    (∃ new_command argv e, exec_start_incoming_migration env command errp
      = ⟨[Call.trace_migration_exec_incoming new_command,
          Call.qio_channel_command_new_spawn argv OpenFlag.O_RDWR none], e, none⟩) ∨
    (∃ new_command argv ioc e, exec_start_incoming_migration env command errp
      = ⟨[Call.trace_migration_exec_incoming new_command,
          Call.qio_channel_command_new_spawn argv OpenFlag.O_RDWR (some ioc),
          Call.qio_channel_set_name ioc "migration-exec-incoming",
          Call.qio_channel_add_watch_full ioc GIOCondition.G_IO_IN
            exec_accept_incoming_migration none none
            env.g_main_context_get_thread_default], e, none⟩) := by
  cases hb : build_argv command errp with
  | error f => exact Or.inl ⟨errp, f, incoming_fault env command errp f hb⟩
  | ok filled =>
    cases hj : g_strjoinv " " filled.argv with
    | error f =>
      refine Or.inl ⟨filled.errp, f, ?_⟩
      unfold exec_start_incoming_migration
      simp only [hb, hj]
    | ok new_command =>
      cases hs : (env.qio_channel_command_new_spawn filled.argv OpenFlag.O_RDWR errp).1 with
      | none =>
        exact Or.inr (Or.inl ⟨new_command, filled.argv, _,
          incoming_spawn_none env command errp filled new_command hb hj hs⟩)
      | some ioc =>
        exact Or.inr (Or.inr ⟨new_command, filled.argv, ioc, _,
          incoming_spawn_some env command errp filled new_command ioc hb hj hs⟩)

/-- After the launch step the launch is `Failed` or has its watch registered,
and the accept callback has not been called. -/
theorem launch_settled (env : Env) (command : strList) (errp : Option Error) :
    (Incoming.launch env command (Incoming.initial errp)).settled ∧
    (Incoming.launch env command (Incoming.initial errp)).accepts = 0 := by
  unfold Incoming.launch Incoming.initial Incoming.settled Incoming.accepts
  rcases incoming_cases env command errp with ⟨e, f, h⟩ | ⟨nc, argv, e, h⟩ | ⟨nc, argv, ioc, e, h⟩
  · simp [h, registered_watch]
  · simp [h, registered_watch, List.filter, Call.is_accept]
  · simp [h, registered_watch, List.filter, Call.is_accept]

/-- A report from the main loop keeps a launch settled. -/
theorem ready_settled (ioc : QIOChannel) (condition : GIOCondition) (st : Incoming)
    (h : st.settled) : (Incoming.ready ioc condition st).settled := by
  rcases h with ⟨hw, hp⟩ | ⟨wioc, ud, ctx, hw, hp, hc⟩
  · have : Incoming.ready ioc condition st = st := by
      unfold Incoming.ready
      simp only [hw]
    rw [this]
    exact Or.inl ⟨hw, hp⟩
  · by_cases hm : wioc = ioc ∧ GIOCondition.G_IO_IN = condition
    · left
      unfold Incoming.accepts at hc
      have hnil : List.filter Call.is_accept st.calls = [] := List.length_eq_zero.mp hc
      unfold Incoming.ready Incoming.accepts
      simp only [hw, hm, and_self, if_true, exec_accept_incoming_migration]
      simp [hnil, List.filter, Call.is_accept]
    · right
      refine ⟨wioc, ud, ctx, ?_⟩
      have : Incoming.ready ioc condition st = st := by
        unfold Incoming.ready
        simp only [hw, hm, if_false]
      rw [this]
      exact ⟨hw, hp, hc⟩

theorem reports_settled (reports : List (QIOChannel × GIOCondition)) :
    ∀ st : Incoming, st.settled →
      (reports.foldl (fun st r => Incoming.ready r.1 r.2 st) st).settled := by
  induction reports with
  | nil => intro st h; exact h
  | cons r rs ih =>
    intro st h
    exact ih _ (ready_settled r.1 r.2 st h)

/-- Reports that do not match the registered watch leave the launch as it is. -/
theorem reports_without_match (reports : List (QIOChannel × GIOCondition)) :
    ∀ st : Incoming, (∀ w, st.watch = some w → (w.ioc, w.condition) ∉ reports) →
      reports.foldl (fun st r => Incoming.ready r.1 r.2 st) st = st := by
  induction reports with
  | nil => intro st _; rfl
  | cons r rs ih =>
    intro st h
    have hr : Incoming.ready r.1 r.2 st = st := by
      unfold Incoming.ready
      cases hw : st.watch with
      | none => rfl
      | some w =>
        have hn := h w hw
        have hne : ¬ (w.ioc = r.1 ∧ w.condition = r.2) := by
          rintro ⟨h1, h2⟩
          apply hn
          rw [h1, h2]
          exact List.mem_cons_self _ _
        simp only [hne, if_false]
    rw [List.foldl_cons, hr]
    exact ih st (fun w hw hmem => h w hw (List.mem_cons_of_mem _ hmem))

theorem settled_accepts_le_one (st : Incoming) (h : st.settled) :
    st.accepts ≤ 1 ∧ st.phase ≠ Phase.Spawning ∧
    (st.accepts = 1 ↔ st.phase = Phase.AcceptedWatchRemoved) ∧
    (st.phase = Phase.AcceptedWatchRemoved ∨ st.phase = Phase.Failed → st.watch = none) := by
  rcases h with ⟨hw, ⟨hp, hc⟩ | ⟨hp, hc⟩⟩ | ⟨wioc, ud, ctx, hw, hp, hc⟩ <;>
    simp [hw, hp, hc]

/-- Claim C9. Every invocation of `exec_accept_incoming_migration`, whatever
the channel, condition and opaque argument, calls the accept callback exactly
once with that channel, releases the reference, and returns
`G_SOURCE_REMOVE`. Hence, for one launch followed by any sequence of reports
from the main loop: no step leads to `Spawning`; the accept callback has been
called at most once, and exactly once precisely in `AcceptedWatchRemoved`; in
the two terminal states no watch is registered and further reports change
nothing; and as long as no report is the watched condition on the watched
channel, the accept callback has not been called. The watch that is registered
is for `G_IO_IN`. -/
theorem incoming_watch_is_one_shot :
    (∀ (ioc : QIOChannel) (condition : GIOCondition) (data : gpointer),
      exec_accept_incoming_migration ioc condition data
        = ([Call.migration_channel_process_incoming ioc, Call.object_unref ioc],
           G_SOURCE_REMOVE) ∧
      (exec_accept_incoming_migration ioc condition data).1.filter Call.is_accept
        = [Call.migration_channel_process_incoming ioc]) ∧
    (∀ (env : Env) (command : strList) (st : Incoming),
      (Incoming.launch env command st).phase ≠ Phase.Spawning) ∧
    (∀ (ioc : QIOChannel) (condition : GIOCondition) (st : Incoming),
      st.phase ≠ Phase.Spawning → (Incoming.ready ioc condition st).phase ≠ Phase.Spawning) ∧
    (∀ (env : Env) (command : strList) (errp : Option Error)
        (reports : List (QIOChannel × GIOCondition)),
      (Incoming.run env command errp reports).accepts ≤ 1 ∧
      (Incoming.run env command errp reports).phase ≠ Phase.Spawning ∧
      ((Incoming.run env command errp reports).accepts = 1 ↔
        (Incoming.run env command errp reports).phase = Phase.AcceptedWatchRemoved) ∧
      ((Incoming.run env command errp reports).phase = Phase.AcceptedWatchRemoved ∨
        (Incoming.run env command errp reports).phase = Phase.Failed →
          (Incoming.run env command errp reports).watch = none ∧
          ∀ ioc condition,
            Incoming.ready ioc condition (Incoming.run env command errp reports)
              = Incoming.run env command errp reports) ∧
      (∀ w, (Incoming.run env command errp []).watch = some w →
        w.condition = GIOCondition.G_IO_IN ∧ w.func = exec_accept_incoming_migration) ∧
      ((∀ w, (Incoming.run env command errp []).watch = some w →
          (w.ioc, GIOCondition.G_IO_IN) ∉ reports) →
        (Incoming.run env command errp reports).accepts = 0)) := by
  refine ⟨fun ioc _ _ => ⟨rfl, rfl⟩, ?_, ?_, ?_⟩
  · intro env command st
    unfold Incoming.launch
    cases hp : st.phase with
    | Spawning =>
      simp only
      cases registered_watch (exec_start_incoming_migration env command st.errp).calls <;> simp
    | SpawnedWatchRegistered => simp [hp]
    | AcceptedWatchRemoved => simp [hp]
    | Failed => simp [hp]
  · intro ioc condition st hst
    unfold Incoming.ready
    cases st.watch with
    | none => exact hst
    | some w =>
      simp only
      split
      · split
        · simp
        · exact hst
      · exact hst
  · intro env command errp reports
    have hl := launch_settled env command errp
    have hs : (Incoming.run env command errp reports).settled :=
      reports_settled reports _ hl.1
    have hq := settled_accepts_le_one _ hs
    refine ⟨hq.1, hq.2.1, hq.2.2.1, ?_, ?_, ?_⟩
    · intro hp
      have hw := hq.2.2.2 hp
      refine ⟨hw, fun ioc condition => ?_⟩
      unfold Incoming.ready
      simp only [hw]
    · intro w hw
      have hw2 : (Incoming.launch env command (Incoming.initial errp)).watch = some w := hw
      rcases hl.1 with ⟨hn, _⟩ | ⟨wioc, ud, ctx, hreg, _, _⟩
      · rw [hn] at hw2; cases hw2
      · rw [hreg] at hw2
        cases hw2
        exact ⟨rfl, rfl⟩
    · intro hno
      have hsame : Incoming.run env command errp reports
          = Incoming.launch env command (Incoming.initial errp) := by
        unfold Incoming.run
        apply reports_without_match
        intro w hw
        have hw2 : (Incoming.run env command errp []).watch = some w := hw
        rcases hl.1 with ⟨hn, _⟩ | ⟨wioc, ud, ctx, hreg, _, _⟩
        · rw [hn] at hw; cases hw
        · have := hno w hw2
          rw [hreg] at hw
          cases hw
          exact this
      rw [hsame]
      exact hl.2

/-- The incoming launch of `cat`: two readable reports give one accept call and
no watch; reports that are not the watched condition on the watched channel
give none; a report on the registered watch does not lead to `Spawning`. -/
theorem incoming_watch_is_one_shot_witness :
    (Incoming.run env_spawn_ok [some "cat"] none
        [(⟨7⟩, GIOCondition.G_IO_IN), (⟨7⟩, GIOCondition.G_IO_IN)]).accepts = 1 ∧
    (Incoming.run env_spawn_ok [some "cat"] none
        [(⟨7⟩, GIOCondition.G_IO_IN), (⟨7⟩, GIOCondition.G_IO_IN)]).watch = none ∧
    (Incoming.run env_spawn_ok [some "cat"] none
        [(⟨7⟩, GIOCondition.G_IO_OUT), (⟨8⟩, GIOCondition.G_IO_IN)]).accepts = 0 ∧
    (Incoming.ready ⟨7⟩ GIOCondition.G_IO_IN
        (Incoming.run env_spawn_ok [some "cat"] none [])).phase ≠ Phase.Spawning :=
  have c := incoming_watch_is_one_shot
  have r := c.2.2.2 env_spawn_ok [some "cat"] none
    [(⟨7⟩, GIOCondition.G_IO_IN), (⟨7⟩, GIOCondition.G_IO_IN)]
  have q := c.2.2.2 env_spawn_ok [some "cat"] none
    [(⟨7⟩, GIOCondition.G_IO_OUT), (⟨8⟩, GIOCondition.G_IO_IN)]
  have hphase : (Incoming.run env_spawn_ok [some "cat"] none
      [(⟨7⟩, GIOCondition.G_IO_IN), (⟨7⟩, GIOCondition.G_IO_IN)]).phase
        = Phase.AcceptedWatchRemoved := rfl
  have hwatch : ∀ w, (Incoming.run env_spawn_ok [some "cat"] none []).watch = some w →
      (w.ioc, GIOCondition.G_IO_IN)
        ∉ [((⟨7⟩ : QIOChannel), GIOCondition.G_IO_OUT), (⟨8⟩, GIOCondition.G_IO_IN)] := by
    intro w hw
    have e : (Incoming.run env_spawn_ok [some "cat"] none []).watch
        = some ⟨⟨7⟩, GIOCondition.G_IO_IN, exec_accept_incoming_migration, none, ⟨1⟩⟩ := rfl
    rw [e] at hw
    cases hw
    decide
  have hstart : (Incoming.run env_spawn_ok [some "cat"] none []).phase ≠ Phase.Spawning := by
    decide
  ⟨r.2.2.1.mpr hphase, (r.2.2.2.1 (Or.inl hphase)).1, q.2.2.2.2.2 hwatch,
    c.2.2.1 ⟨7⟩ GIOCondition.G_IO_IN _ hstart⟩

end MigrationExec
